import Mathlib

/-!
Verification of the circus_science_reader desktop application
(`desktop_app/main.py`): a BLE motion-sensor reader that decodes packed
binary samples, fans them out to a live plotter and a websocket publisher,
and maintains rolling plot windows with adaptive axis rescaling.

Numeric values carried by samples are modelled as exact rationals (`ℚ`);
the raw wire format is modelled bit-exactly via an IEEE-754 binary32
decoder producing an `F32` value.
-/


namespace CircusReader

/-! ## Module-level constants (main.py lines 21-26) -/

/-- Constant `PLOT_MARGIN = 10` (percent, line 23). -/
def PLOT_MARGIN : ℚ := 10

/-- Constant `S_BETWEEN_DATAPOINTS = 1 / 119.6` (119.6 = 598/5), the nominal
sample period in seconds (line 24). -/
def S_BETWEEN_DATAPOINTS : ℚ := 1 / (598 / 5)

/-- Constant `TIME_PLOTTED = 10` seconds (line 25). -/
def TIME_PLOTTED : ℚ := 10

/-- Constant `NUMBER_OF_DATA_POINTS = int(math.floor(TIME_PLOTTED / S_BETWEEN_DATAPOINTS))`.
In CPython double arithmetic `10 / (1 / 119.6)` evaluates to exactly
`1196.0`, so the constant is 1196; this coincides with the exact rational
`⌊TIME_PLOTTED / S_BETWEEN_DATAPOINTS⌋` (theorem `NDP_floor`). -/
def NUMBER_OF_DATA_POINTS : ℕ := 1196

/-! ## IEEE-754 binary32 values

`struct.unpack("f", b)` interprets 4 bytes in native (little-endian) order
as an IEEE-754 single-precision float.  A decoded value is either a finite
rational, a signed infinity, or NaN. -/

inductive F32 where
  | finite (val : ℚ)
  | infinity (neg : Bool)
  | nan
  deriving DecidableEq, Repr, Inhabited

/-- Assemble a 32-bit word from four bytes in little-endian order. -/
def leWord (b0 b1 b2 b3 : ℕ) : ℕ :=
  b0 % 256 + 256 * (b1 % 256) + 65536 * (b2 % 256) + 16777216 * (b3 % 256)

/-- Decode a 32-bit word as an IEEE-754 binary32 value: sign bit 31,
exponent bits 30-23, mantissa bits 22-0. -/
def decodeF32 (w : ℕ) : F32 :=
  let sign : ℕ := w / 2 ^ 31 % 2
  let expo : ℕ := w / 2 ^ 23 % 2 ^ 8
  let mant : ℕ := w % 2 ^ 23
  let sgn : ℚ := if sign = 1 then -1 else 1
  if expo = 255 then
    if mant = 0 then .infinity (sign = 1) else .nan
  else if expo = 0 then
    .finite (sgn * (mant : ℚ) / 2 ^ 149)
  else
    .finite (sgn * ((2 : ℚ) ^ 23 + (mant : ℚ)) * 2 ^ expo / 2 ^ 150)

/-! ## Data model (main.py lines 32-42)

`DataPoint` is polymorphic in the numeric value type: the decoder produces
`DataPoint F32` (bit-exact wire values), while the plotter and websocket
models work with `DataPoint ℚ` (values as exact reals). -/

structure DataPoint (V : Type) where
  timestamp : ℚ
  gyro_x : V
  gyro_y : V
  gyro_z : V
  accel_x : V
  accel_y : V
  accel_z : V
  deriving DecidableEq, Repr, Inhabited

/-! ## SampleDecoder (`Nano33BLE.callback_data`, main.py lines 53-72) -/

/-- The `while len(data) > 0` loop of `callback_data`: repeatedly unpack
4 bytes as one float and delete them from the buffer.  When fewer than 4
bytes remain (buffer length not a multiple of 4), `struct.unpack` raises
`struct.error` before any sample is built; modelled as `none`. -/
def unpackFloats : List ℕ → Option (List F32)
  | [] => some []
  | b0 :: b1 :: b2 :: b3 :: rest =>
      (unpackFloats rest).map (fun fs => decodeF32 (leWord b0 b1 b2 b3) :: fs)
  | _ => none

/-- The `for i in range(0, len(floats), 6)` loop of `callback_data`.
Each full group of 6 floats becomes one `DataPoint` with
`timestamp = current_datapoint * S_BETWEEN_DATAPOINTS`, after which the
counter post-increments.  If the loop index is in range but fewer than 6
floats remain, indexing the deque raises `IndexError` before the incomplete
sample is built or the counter advances; the `Bool` is `false` when the
loop aborted this way.  Returns the emitted samples (in order), the new
counter, and the completion flag. -/
def buildSamples (c : ℕ) : List F32 → List (DataPoint F32) × ℕ × Bool
  | [] => ([], c, true)
  | f0 :: rest =>
      match rest with
      | f1 :: f2 :: f3 :: f4 :: f5 :: rest2 =>
          let dp : DataPoint F32 :=
            ⟨c * S_BETWEEN_DATAPOINTS, f0, f1, f2, f3, f4, f5⟩
          let r := buildSamples (c + 1) rest2
          (dp :: r.1, r.2)
      | _ => ([], c, false)

/-- State of the `Nano33BLE` producer: the `current_datapoint` counter and
the contents of the two consumer queues (`plot_queue`, `serial_queue`),
front of the list = front of the queue. -/
structure NanoState where
  current_datapoint : ℕ
  plot_queue : List (DataPoint F32)
  serial_queue : List (DataPoint F32)
  deriving DecidableEq, Repr

/-- The samples a call to `callback_data` emits (and `put`s on both
queues) given the counter value and the raw buffer. -/
def decodedSamples (c : ℕ) (data : List ℕ) : List (DataPoint F32) :=
  match unpackFloats data with
  | none => []
  | some fs => (buildSamples c fs).1

/-- Method `Nano33BLE.callback_data(self, _, data)`: unpack the buffer into
floats, then build samples, putting each sample once on `plot_queue` and
once on `serial_queue`.  The returned `Bool` is `false` when the call
aborted with an exception (`struct.error` or `IndexError`); the samples
emitted before the abort remain enqueued and the counter keeps the
increments performed before the abort. -/
def Nano33BLE.callback_data (st : NanoState) (data : List ℕ) :
    NanoState × Bool :=
  match unpackFloats data with
  | none => (st, false)
  | some fs =>
      let r := buildSamples st.current_datapoint fs
      (⟨r.2.1, st.plot_queue ++ r.1, st.serial_queue ++ r.1⟩, r.2.2)

/-- The counter value after one `callback_data` call starting from `c`. -/
def counterAfter (c : ℕ) (data : List ℕ) : ℕ :=
  match unpackFloats data with
  | none => c
  | some fs => (buildSamples c fs).2.1

/-- The completion flag of one `callback_data` call. -/
def okAfter (c : ℕ) (data : List ℕ) : Bool :=
  match unpackFloats data with
  | none => false
  | some fs => (buildSamples c fs).2.2

/-- A sequence of notification callbacks (one buffer per call). -/
def runCallbacks (st : NanoState) : List (List ℕ) → NanoState
  | [] => st
  | d :: ds => runCallbacks (Nano33BLE.callback_data st d).1 ds

/-- All samples emitted over a sequence of callbacks, in decode order. -/
def emittedAll (c : ℕ) : List (List ℕ) → List (DataPoint F32)
  | [] => []
  | d :: ds => decodedSamples c d ++ emittedAll (counterAfter c d) ds

/-! ## Byte-level decoder characterization (definitions) -/

/-- The IEEE-754 binary32 value stored little-endian at byte offset `off`
of the buffer. -/
def f32At (data : List ℕ) (off : ℕ) : F32 :=
  decodeF32 (leWord (data.getD off 0) (data.getD (off + 1) 0)
    (data.getD (off + 2) 0) (data.getD (off + 3) 0))

/-- The `j`-th sample the decoder produces from a well-framed buffer when
its counter starts at `c`: index `c + j`, synthetic timestamp
`(c + j) * S_BETWEEN_DATAPOINTS`, and the six little-endian floats of the
`j`-th 24-byte group in order gyro_x, gyro_y, gyro_z, accel_x, accel_y,
accel_z. -/
def sampleAt (c : ℕ) (data : List ℕ) (j : ℕ) : DataPoint F32 :=
  ⟨((c + j : ℕ) : ℚ) * S_BETWEEN_DATAPOINTS,
   f32At data (24 * j), f32At data (24 * j + 4), f32At data (24 * j + 8),
   f32At data (24 * j + 12), f32At data (24 * j + 16), f32At data (24 * j + 20)⟩

/-- The `j`-th sample built from a float list: six consecutive floats
starting at position `6 * j`. -/
def sampleAtF (c : ℕ) (fs : List F32) (j : ℕ) : DataPoint F32 :=
  ⟨((c + j : ℕ) : ℚ) * S_BETWEEN_DATAPOINTS,
   fs.getD (6 * j) default, fs.getD (6 * j + 1) default, fs.getD (6 * j + 2) default,
   fs.getD (6 * j + 3) default, fs.getD (6 * j + 4) default, fs.getD (6 * j + 5) default⟩

/-! ## Plotter (main.py lines 101-287)

Each matplotlib `Line2D` stores its own x/y data; each subplot stores its
own axis limits.  `animate` reads the shared x sequence from
`accel_x_line` only (line 191) and writes the same x to all six lines. -/

structure Line2D where
  xdata : List ℚ
  ydata : List ℚ
  deriving DecidableEq, Repr

structure AxisLims where
  xlim : ℚ × ℚ
  ylim : ℚ × ℚ
  deriving DecidableEq, Repr

structure PlotterState where
  accel_x_plot : AxisLims
  accel_y_plot : AxisLims
  accel_z_plot : AxisLims
  gyro_x_plot : AxisLims
  gyro_y_plot : AxisLims
  gyro_z_plot : AxisLims
  accel_x_line : Line2D
  accel_y_line : Line2D
  accel_z_line : Line2D
  gyro_x_line : Line2D
  gyro_y_line : Line2D
  gyro_z_line : Line2D
  deriving DecidableEq, Repr

/-- Method `Plotter.init_plots` (lines 125-178): every subplot gets
`set_xlim(0, NUMBER_OF_DATA_POINTS)`; the three acceleration subplots get
`set_ylim(-2, 2)`, the three gyro subplots `set_ylim(-100, 100)`; all six
lines start with empty data (`plot([], [])`). -/
def init_plots : PlotterState :=
  let accelLims : AxisLims := ⟨(0, (NUMBER_OF_DATA_POINTS : ℚ)), (-2, 2)⟩
  let gyroLims : AxisLims := ⟨(0, (NUMBER_OF_DATA_POINTS : ℚ)), (-100, 100)⟩
  ⟨accelLims, accelLims, accelLims, gyroLims, gyroLims, gyroLims,
   ⟨[], []⟩, ⟨[], []⟩, ⟨[], []⟩, ⟨[], []⟩, ⟨[], []⟩, ⟨[], []⟩⟩

/-- Python `min(iterable, default=d)`. -/
def pyMin (l : List ℚ) (d : ℚ) : ℚ :=
  match l with
  | [] => d
  | h :: t => t.foldl min h

/-- Python `max(iterable, default=d)`. -/
def pyMax (l : List ℚ) (d : ℚ) : ℚ :=
  match l with
  | [] => d
  | h :: t => t.foldl max h

/-- Python `min(iterable)` without default: raises `ValueError` on an
empty iterable, modelled as `none`. -/
def pyMinE (l : List ℚ) : Option ℚ :=
  match l with
  | [] => none
  | h :: t => some (t.foldl min h)

/-- Python `max(iterable)` without default, `none` on empty. -/
def pyMaxE (l : List ℚ) : Option ℚ :=
  match l with
  | [] => none
  | h :: t => some (t.foldl max h)

/-- The repeated source pattern `np.append(old, new)[-NUMBER_OF_DATA_POINTS:]`
pattern (lines 228-236): append the freshly drained values, keep the last
`NUMBER_OF_DATA_POINTS` entries. -/
def seriesUpdate (old new : List ℚ) : List ℚ :=
  (old ++ new).rtake NUMBER_OF_DATA_POINTS

/-- Method `Plotter.animate` (lines 182-281) applied to the batch of data points
drained from `plot_queue` this tick.  If the drain is empty the function
returns early leaving all state untouched (lines 202-203).  Otherwise it
appends the batch to every series, truncates each to the last
`NUMBER_OF_DATA_POINTS` entries, recomputes axis limits, and stores the
new x sequence and y data in every line.  The y limits come from
`min`/`max` of `accel_x_y + accel_y_y + accel_z_y` (and likewise gyro):
those operands are numpy arrays, so `+` is elementwise addition, modelled
with `List.zipWith`.  A `min`/`max` call on an empty array raises
(`none`); this never happens on a non-empty batch. -/
def animate (new_data : List (DataPoint ℚ)) (s : PlotterState) :
    Option PlotterState :=
  let x := s.accel_x_line.xdata
  if new_data.isEmpty then some s
  else
    let x2 := seriesUpdate x (new_data.map fun dp => dp.timestamp)
    let accel_x_y2 := seriesUpdate s.accel_x_line.ydata (new_data.map fun dp => dp.accel_x)
    let accel_y_y2 := seriesUpdate s.accel_y_line.ydata (new_data.map fun dp => dp.accel_y)
    let accel_z_y2 := seriesUpdate s.accel_z_line.ydata (new_data.map fun dp => dp.accel_z)
    let gyro_x_y2 := seriesUpdate s.gyro_x_line.ydata (new_data.map fun dp => dp.gyro_x)
    let gyro_y_y2 := seriesUpdate s.gyro_y_line.ydata (new_data.map fun dp => dp.gyro_y)
    let gyro_z_y2 := seriesUpdate s.gyro_z_line.ydata (new_data.map fun dp => dp.gyro_z)
    let min_x := pyMin x2 0
    let max_x := pyMax x2 10
    let accel_sum :=
      List.zipWith (· + ·) (List.zipWith (· + ·) accel_x_y2 accel_y_y2) accel_z_y2
    let gyro_sum :=
      List.zipWith (· + ·) (List.zipWith (· + ·) gyro_x_y2 gyro_y_y2) gyro_z_y2
    (pyMinE accel_sum).bind fun min_accel_y0 =>
    (pyMaxE accel_sum).bind fun max_accel_y0 =>
    (pyMinE gyro_sum).bind fun min_gyro_y0 =>
    (pyMaxE gyro_sum).bind fun max_gyro_y0 =>
      let accel_delta := max ((max_accel_y0 - min_accel_y0) * (PLOT_MARGIN / 100)) (1 / 2)
      let min_accel_y := min_accel_y0 - accel_delta
      let max_accel_y := max_accel_y0 + accel_delta
      let gyro_delta := max ((max_gyro_y0 - min_gyro_y0) * (PLOT_MARGIN / 100)) 10
      let min_gyro_y := min_gyro_y0 - gyro_delta
      let max_gyro_y := max_gyro_y0 + gyro_delta
      some ⟨⟨(min_x, max_x), (min_accel_y, max_accel_y)⟩,
            ⟨(min_x, max_x), (min_accel_y, max_accel_y)⟩,
            ⟨(min_x, max_x), (min_accel_y, max_accel_y)⟩,
            ⟨(min_x, max_x), (min_gyro_y, max_gyro_y)⟩,
            ⟨(min_x, max_x), (min_gyro_y, max_gyro_y)⟩,
            ⟨(min_x, max_x), (min_gyro_y, max_gyro_y)⟩,
            ⟨x2, accel_x_y2⟩, ⟨x2, accel_y_y2⟩, ⟨x2, accel_z_y2⟩,
            ⟨x2, gyro_x_y2⟩, ⟨x2, gyro_y_y2⟩, ⟨x2, gyro_z_y2⟩⟩

/-! Components of the state `animate` produces on a non-empty batch. -/

/-- The merged x window of this tick (timestamps). -/
def xWindow (b : List (DataPoint ℚ)) (s : PlotterState) : List ℚ :=
  seriesUpdate s.accel_x_line.xdata (b.map fun dp => dp.timestamp)

/-- The merged accel-x y window of this tick. -/
def accelXWindow (b : List (DataPoint ℚ)) (s : PlotterState) : List ℚ :=
  seriesUpdate s.accel_x_line.ydata (b.map fun dp => dp.accel_x)

/-- The merged accel-y y window of this tick. -/
def accelYWindow (b : List (DataPoint ℚ)) (s : PlotterState) : List ℚ :=
  seriesUpdate s.accel_y_line.ydata (b.map fun dp => dp.accel_y)

/-- The merged accel-z y window of this tick. -/
def accelZWindow (b : List (DataPoint ℚ)) (s : PlotterState) : List ℚ :=
  seriesUpdate s.accel_z_line.ydata (b.map fun dp => dp.accel_z)

/-- The merged gyro-x y window of this tick. -/
def gyroXWindow (b : List (DataPoint ℚ)) (s : PlotterState) : List ℚ :=
  seriesUpdate s.gyro_x_line.ydata (b.map fun dp => dp.gyro_x)

/-- The merged gyro-y y window of this tick. -/
def gyroYWindow (b : List (DataPoint ℚ)) (s : PlotterState) : List ℚ :=
  seriesUpdate s.gyro_y_line.ydata (b.map fun dp => dp.gyro_y)

/-- The merged gyro-z y window of this tick. -/
def gyroZWindow (b : List (DataPoint ℚ)) (s : PlotterState) : List ℚ :=
  seriesUpdate s.gyro_z_line.ydata (b.map fun dp => dp.gyro_z)

/-- Expression `accel_x_y + accel_y_y + accel_z_y` of line 241: the numpy elementwise
sum of the three acceleration windows. -/
def accelSum (b : List (DataPoint ℚ)) (s : PlotterState) : List ℚ :=
  List.zipWith (· + ·)
    (List.zipWith (· + ·) (accelXWindow b s) (accelYWindow b s))
    (accelZWindow b s)

/-- Expression `gyro_x_y + gyro_y_y + gyro_z_y` of line 249. -/
def gyroSum (b : List (DataPoint ℚ)) (s : PlotterState) : List ℚ :=
  List.zipWith (· + ·)
    (List.zipWith (· + ·) (gyroXWindow b s) (gyroYWindow b s))
    (gyroZWindow b s)

/-- The x limits set on every subplot (lines 238-239, 258-267). -/
def xlimNew (b : List (DataPoint ℚ)) (s : PlotterState) : ℚ × ℚ :=
  (pyMin (xWindow b s) 0, pyMax (xWindow b s) 10)

/-- The y limits set on the acceleration subplots (lines 241-247). -/
def accelYlimNew (b : List (DataPoint ℚ)) (s : PlotterState) : ℚ × ℚ :=
  (pyMin (accelSum b s) 0 -
     max ((pyMax (accelSum b s) 0 - pyMin (accelSum b s) 0) * (PLOT_MARGIN / 100))
       (1 / 2),
   pyMax (accelSum b s) 0 +
     max ((pyMax (accelSum b s) 0 - pyMin (accelSum b s) 0) * (PLOT_MARGIN / 100))
       (1 / 2))

/-- The y limits set on the gyro subplots (lines 249-255). -/
def gyroYlimNew (b : List (DataPoint ℚ)) (s : PlotterState) : ℚ × ℚ :=
  (pyMin (gyroSum b s) 0 -
     max ((pyMax (gyroSum b s) 0 - pyMin (gyroSum b s) 0) * (PLOT_MARGIN / 100)) 10,
   pyMax (gyroSum b s) 0 +
     max ((pyMax (gyroSum b s) 0 - pyMin (gyroSum b s) 0) * (PLOT_MARGIN / 100)) 10)

/-- Total companion of the non-empty branch of `animate` (the error branches of
`animate` are unreachable for a non-empty batch, see `animate_eq_step`). -/
def animateStep (new_data : List (DataPoint ℚ)) (s : PlotterState) :
    PlotterState :=
  ⟨⟨xlimNew new_data s, accelYlimNew new_data s⟩,
   ⟨xlimNew new_data s, accelYlimNew new_data s⟩,
   ⟨xlimNew new_data s, accelYlimNew new_data s⟩,
   ⟨xlimNew new_data s, gyroYlimNew new_data s⟩,
   ⟨xlimNew new_data s, gyroYlimNew new_data s⟩,
   ⟨xlimNew new_data s, gyroYlimNew new_data s⟩,
   ⟨xWindow new_data s, accelXWindow new_data s⟩,
   ⟨xWindow new_data s, accelYWindow new_data s⟩,
   ⟨xWindow new_data s, accelZWindow new_data s⟩,
   ⟨xWindow new_data s, gyroXWindow new_data s⟩,
   ⟨xWindow new_data s, gyroYWindow new_data s⟩,
   ⟨xWindow new_data s, gyroZWindow new_data s⟩⟩

/-- A sequence of render ticks: each tick drains one batch and runs
`animate`. -/
def runTicks : List (List (DataPoint ℚ)) → PlotterState → Option PlotterState
  | [], s => some s
  | b :: bs, s => (animate b s).bind (runTicks bs)

/-! ## Plotter invariants -/

/-- Structural well-formedness of the plotter state: every line carries
the same x sequence, every y series has the same length as the x sequence,
and no series exceeds the window capacity. -/
def Wf (s : PlotterState) : Prop :=
  s.accel_y_line.xdata = s.accel_x_line.xdata ∧
  s.accel_z_line.xdata = s.accel_x_line.xdata ∧
  s.gyro_x_line.xdata = s.accel_x_line.xdata ∧
  s.gyro_y_line.xdata = s.accel_x_line.xdata ∧
  s.gyro_z_line.xdata = s.accel_x_line.xdata ∧
  s.accel_x_line.ydata.length = s.accel_x_line.xdata.length ∧
  s.accel_y_line.ydata.length = s.accel_x_line.xdata.length ∧
  s.accel_z_line.ydata.length = s.accel_x_line.xdata.length ∧
  s.gyro_x_line.ydata.length = s.accel_x_line.xdata.length ∧
  s.gyro_y_line.ydata.length = s.accel_x_line.xdata.length ∧
  s.gyro_z_line.ydata.length = s.accel_x_line.xdata.length ∧
  s.accel_x_line.xdata.length ≤ NUMBER_OF_DATA_POINTS

/-- The x-axis limit invariant: while no data has ever been merged the
limits keep their `init_plots` value `(0, NUMBER_OF_DATA_POINTS)`; once the
window is non-empty they equal the min/max timestamp of the window; all six
subplots always share the same x limits. -/
def XlimInv (s : PlotterState) : Prop :=
  (s.accel_x_line.xdata = [] →
    s.accel_x_plot.xlim = (0, (NUMBER_OF_DATA_POINTS : ℚ))) ∧
  (s.accel_x_line.xdata ≠ [] →
    s.accel_x_plot.xlim
      = (pyMin s.accel_x_line.xdata 0, pyMax s.accel_x_line.xdata 10)) ∧
  s.accel_y_plot.xlim = s.accel_x_plot.xlim ∧
  s.accel_z_plot.xlim = s.accel_x_plot.xlim ∧
  s.gyro_x_plot.xlim = s.accel_x_plot.xlim ∧
  s.gyro_y_plot.xlim = s.accel_x_plot.xlim ∧
  s.gyro_z_plot.xlim = s.accel_x_plot.xlim

/-- The y-range computation as the spec words it: `min` and `max` taken
over the union (concatenation) of the three member channels, then widened
by `margin = max((max - min) * margin_fraction, floor_margin)`. -/
def specGroupYRange (ax ay az : List ℚ) (frac floorM : ℚ) : ℚ × ℚ :=
  let u := ax ++ ay ++ az
  let mn := pyMin u 0
  let mx := pyMax u 0
  let d := max ((mx - mn) * frac) floorM
  (mn - d, mx + d)

/-! ## WebsocketServer (main.py lines 290-313) -/

/-- Round a rational to the nearest integer, ties to even.  Models the
rounding CPython fixed-point formatting performs at the last kept digit. -/
def roundHalfEven (q : ℚ) : ℤ :=
  let f := Int.floor q
  let r := q - f
  if r < 1 / 2 then f
  else if 1 / 2 < r then f + 1
  else if f % 2 = 0 then f else f + 1

/-- Three decimal digits of `n % 1000`, zero-padded to width 3. -/
def pad3 (n : ℕ) : String :=
  String.mk [Nat.digitChar (n / 100 % 10), Nat.digitChar (n / 10 % 10),
             Nat.digitChar (n % 10)]

/-- CPython `f"{v:.3f}"` on an exact value: fixed-point with exactly three
digits after the decimal point, rounding half to even, with a minus sign
exactly when the value is negative. -/
def fix3 (q : ℚ) : String :=
  let m := (roundHalfEven (q * 1000)).natAbs
  (if q < 0 then "-" else "") ++ Nat.repr (m / 1000) ++ "." ++ pad3 (m % 1000)

/-- One request iteration of `WebsocketServer.ws_handler` (lines 300-313):
drain the entire `serial_queue` non-blocking into `new_data`, then respond
with the last drained sample formatted as six `;`-separated `.3f` fields
in order gyro_x, gyro_y, gyro_z, accel_x, accel_y, accel_z.
`new_data[-1]` on an empty deque raises `IndexError`, caught by the bare
`except`, which sends the all-zero payload instead. -/
def ws_respond (new_data : List (DataPoint ℚ)) : String :=
  match new_data.getLast? with
  | some d =>
      fix3 d.gyro_x ++ ";" ++ fix3 d.gyro_y ++ ";" ++ fix3 d.gyro_z ++ ";" ++
      fix3 d.accel_x ++ ";" ++ fix3 d.accel_y ++ ";" ++ fix3 d.accel_z
  | none => "0.000;0.000;0.000;0.000;0.000;0.000"

/-! ## Decoder characterization -/

theorem getD_map_range {α : Type} (f : ℕ → α) (n i : ℕ) (d : α) :
    (((List.range n).map f).getD i d) = if i < n then f i else d := by
  by_cases h : i < n
  · simp [List.getD, List.getElem?_map, List.getElem?_range h, h]
  · have hnone : (List.range n)[i]? = none :=
      List.getElem?_eq_none (by simpa using Nat.le_of_not_lt h)
    simp [List.getD, List.getElem?_map, hnone, h]

theorem unpackFloats_mod : ∀ data : List ℕ, data.length % 4 ≠ 0 →
    unpackFloats data = none
  | [], h => by simp at h
  | [b0], h => by simp [unpackFloats]
  | [b0, b1], h => by simp [unpackFloats]
  | [b0, b1, b2], h => by simp [unpackFloats]
  | b0 :: b1 :: b2 :: b3 :: rest, h => by
      have hr : rest.length % 4 ≠ 0 := by
        simp only [List.length_cons] at h; omega
      simp [unpackFloats, unpackFloats_mod rest hr]

theorem unpackFloats_ok : ∀ (data : List ℕ) (m : ℕ), data.length = 4 * m →
    unpackFloats data = some ((List.range m).map (fun i => f32At data (4 * i)))
  | [], m, h => by
      obtain rfl : m = 0 := by simp at h; omega
      simp [unpackFloats]
  | [b0], m, h => by simp at h; omega
  | [b0, b1], m, h => by simp at h; omega
  | [b0, b1, b2], m, h => by simp at h; omega
  | b0 :: b1 :: b2 :: b3 :: rest, 0, h => by simp at h
  | b0 :: b1 :: b2 :: b3 :: rest, m' + 1, h => by
      have hr : rest.length = 4 * m' := by
        simp only [List.length_cons] at h; omega
      have ih := unpackFloats_ok rest m' hr
      have hshift : ∀ i : ℕ,
          f32At rest (4 * i) = f32At (b0 :: b1 :: b2 :: b3 :: rest) (4 * (i + 1)) := by
        intro i
        have h4 : 4 * (i + 1) = 4 * i + 1 + 1 + 1 + 1 := by omega
        have h1 : 4 * (i + 1) + 1 = 4 * i + 1 + 1 + 1 + 1 + 1 := by omega
        have h2 : 4 * (i + 1) + 2 = 4 * i + 2 + 1 + 1 + 1 + 1 := by omega
        have h3 : 4 * (i + 1) + 3 = 4 * i + 3 + 1 + 1 + 1 + 1 := by omega
        simp only [f32At, h4, h1, h2, h3, List.getD_cons_succ]
      simp only [unpackFloats, ih, Option.map_some', Option.some.injEq]
      rw [List.range_succ_eq_map]
      simp only [List.map_cons, List.map_map]
      refine List.cons_eq_cons.mpr ⟨?_, ?_⟩
      · simp [f32At]
      · apply List.map_congr_left
        intro i _
        simpa [Function.comp] using hshift i

theorem buildSamples_ok : ∀ (c : ℕ) (fs : List F32) (k : ℕ), fs.length = 6 * k →
    buildSamples c fs = ((List.range k).map (sampleAtF c fs), c + k, true)
  | c, [], k, h => by
      obtain rfl : k = 0 := by simp at h; omega
      simp [buildSamples]
  | c, [f0], k, h => by simp at h; omega
  | c, [f0, f1], k, h => by simp at h; omega
  | c, [f0, f1, f2], k, h => by simp at h; omega
  | c, [f0, f1, f2, f3], k, h => by simp at h; omega
  | c, [f0, f1, f2, f3, f4], k, h => by simp at h; omega
  | c, f0 :: f1 :: f2 :: f3 :: f4 :: f5 :: rest, 0, h => by simp at h
  | c, f0 :: f1 :: f2 :: f3 :: f4 :: f5 :: rest, k' + 1, h => by
      have hr : rest.length = 6 * k' := by
        simp only [List.length_cons] at h; omega
      have ih := buildSamples_ok (c + 1) rest k' hr
      have hshift : ∀ j : ℕ,
          sampleAtF (c + 1) rest j =
            sampleAtF c (f0 :: f1 :: f2 :: f3 :: f4 :: f5 :: rest) (j + 1) := by
        intro j
        have e0 : 6 * (j + 1) = 6 * j + 1 + 1 + 1 + 1 + 1 + 1 := by omega
        have e1 : 6 * (j + 1) + 1 = 6 * j + 1 + 1 + 1 + 1 + 1 + 1 + 1 := by omega
        have e2 : 6 * (j + 1) + 2 = 6 * j + 2 + 1 + 1 + 1 + 1 + 1 + 1 := by omega
        have e3 : 6 * (j + 1) + 3 = 6 * j + 3 + 1 + 1 + 1 + 1 + 1 + 1 := by omega
        have e4 : 6 * (j + 1) + 4 = 6 * j + 4 + 1 + 1 + 1 + 1 + 1 + 1 := by omega
        have e5 : 6 * (j + 1) + 5 = 6 * j + 5 + 1 + 1 + 1 + 1 + 1 + 1 := by omega
        simp only [sampleAtF, e0, e1, e2, e3, e4, e5, List.getD_cons_succ,
          DataPoint.mk.injEq, and_true, true_and]
        push_cast
        ring
      simp only [buildSamples, ih]
      rw [List.range_succ_eq_map]
      simp only [List.map_cons, List.map_map]
      refine Prod.ext ?_ (Prod.ext ?_ rfl)
      · simp only []
        refine List.cons_eq_cons.mpr ⟨?_, ?_⟩
        · simp [sampleAtF]
        · apply List.map_congr_left
          intro j _
          simpa [Function.comp] using hshift j
      · simp only []
        omega

theorem buildSamples_bad : ∀ (c : ℕ) (fs : List F32), fs.length % 6 ≠ 0 →
    (buildSamples c fs).1.length = fs.length / 6 ∧
      (buildSamples c fs).2.1 = c + fs.length / 6 ∧ (buildSamples c fs).2.2 = false
  | c, [], h => by simp at h
  | c, [f0], h => by simp [buildSamples]
  | c, [f0, f1], h => by simp [buildSamples]
  | c, [f0, f1, f2], h => by simp [buildSamples]
  | c, [f0, f1, f2, f3], h => by simp [buildSamples]
  | c, [f0, f1, f2, f3, f4], h => by simp [buildSamples]
  | c, f0 :: f1 :: f2 :: f3 :: f4 :: f5 :: rest, h => by
      have hr : rest.length % 6 ≠ 0 := by
        simp only [List.length_cons] at h; omega
      have ih := buildSamples_bad (c + 1) rest hr
      simp only [buildSamples, List.length_cons]
      refine ⟨?_, ?_, ?_⟩
      · simp only [List.length_cons, ih.1]
        omega
      · simp only [ih.2.1]
        omega
      · exact ih.2.2

/-- A well-framed buffer (`length = 24 * k`) decodes to the `k` samples
described by `sampleAt`. -/
theorem decodedSamples_eq (c : ℕ) (data : List ℕ) (k : ℕ)
    (h : data.length = 24 * k) :
    decodedSamples c data = (List.range k).map (sampleAt c data) := by
  have h6 : data.length = 4 * (6 * k) := by omega
  have hu := unpackFloats_ok data (6 * k) h6
  unfold decodedSamples
  rw [hu]
  show (buildSamples c ((List.range (6 * k)).map fun i => f32At data (4 * i))).1 = _
  rw [buildSamples_ok c _ k (by simp)]
  show List.map (sampleAtF c _) (List.range k) = _
  apply List.map_congr_left
  intro j hj
  have hjk : j < k := List.mem_range.mp hj
  have hgd : ∀ r : ℕ, r < 6 →
      ((List.range (6 * k)).map (fun i => f32At data (4 * i))).getD (6 * j + r) default =
        f32At data (24 * j + 4 * r) := by
    intro r hr
    rw [getD_map_range]
    have hlt : 6 * j + r < 6 * k := by omega
    rw [if_pos hlt]
    congr 1
    omega
  have g0 := hgd 0 (by omega)
  have g1 := hgd 1 (by omega)
  have g2 := hgd 2 (by omega)
  have g3 := hgd 3 (by omega)
  have g4 := hgd 4 (by omega)
  have g5 := hgd 5 (by omega)
  norm_num at g0 g1 g2 g3 g4 g5
  simp [sampleAtF, sampleAt, g0, g1, g2, g3, g4, g5]

theorem callback_data_eq (st : NanoState) (data : List ℕ) :
    Nano33BLE.callback_data st data =
      (⟨counterAfter st.current_datapoint data,
        st.plot_queue ++ decodedSamples st.current_datapoint data,
        st.serial_queue ++ decodedSamples st.current_datapoint data⟩,
       okAfter st.current_datapoint data) := by
  cases h : unpackFloats data <;>
    simp [Nano33BLE.callback_data, counterAfter, okAfter, decodedSamples, h]

/-- C6 helper: one callback appends its decoded samples to both queues. -/
theorem runCallbacks_queues (bufs : List (List ℕ)) :
    ∀ st : NanoState,
      (runCallbacks st bufs).plot_queue
          = st.plot_queue ++ emittedAll st.current_datapoint bufs ∧
      (runCallbacks st bufs).serial_queue
          = st.serial_queue ++ emittedAll st.current_datapoint bufs := by
  induction bufs with
  | nil => intro st; simp [runCallbacks, emittedAll]
  | cons d ds ih =>
      intro st
      have hstep := callback_data_eq st d
      have h1 : (Nano33BLE.callback_data st d).1 =
          ⟨counterAfter st.current_datapoint d,
           st.plot_queue ++ decodedSamples st.current_datapoint d,
           st.serial_queue ++ decodedSamples st.current_datapoint d⟩ := by
        rw [hstep]
      show (runCallbacks (Nano33BLE.callback_data st d).1 ds).plot_queue = _ ∧
        (runCallbacks (Nano33BLE.callback_data st d).1 ds).serial_queue = _
      rw [h1]
      have := ih ⟨counterAfter st.current_datapoint d,
        st.plot_queue ++ decodedSamples st.current_datapoint d,
        st.serial_queue ++ decodedSamples st.current_datapoint d⟩
      simp only [emittedAll] at this ⊢
      rw [this.1, this.2]
      simp [List.append_assoc]

/-! ## List and min/max helper lemmas -/

theorem length_rtake {α : Type} (l : List α) (n : ℕ) :
    (l.rtake n).length = min n l.length := by
  simp only [List.rtake, List.length_drop]
  omega

theorem rtake_eq_self {α : Type} (l : List α) (n : ℕ) (h : l.length ≤ n) :
    l.rtake n = l := by
  simp [List.rtake, Nat.sub_eq_zero_of_le h]

theorem rtake_ne_nil {α : Type} (l : List α) (n : ℕ) (hn : n ≠ 0)
    (hl : l ≠ []) : l.rtake n ≠ [] := by
  intro hcon
  have hlen := congrArg List.length hcon
  rw [length_rtake] at hlen
  simp only [List.length_nil] at hlen
  have : l.length ≠ 0 := fun h0 => hl (List.length_eq_zero.mp h0)
  omega

theorem take_append_take {α : Type} (x y : List α) (n : ℕ) :
    (x ++ y.take n).take n = (x ++ y).take n := by
  rw [List.take_append_eq_append_take, List.take_append_eq_append_take,
    List.take_take]
  congr 1
  rw [Nat.min_eq_left (Nat.sub_le n x.length)]

theorem rtake_append_rtake {α : Type} (a b : List α) (n : ℕ) :
    ((a.rtake n) ++ b).rtake n = (a ++ b).rtake n := by
  rw [List.rtake_eq_reverse_take_reverse (l := a),
    List.rtake_eq_reverse_take_reverse, List.rtake_eq_reverse_take_reverse,
    List.reverse_append, List.reverse_reverse, List.reverse_append,
    take_append_take]

theorem rdrop_append_rtake {α : Type} (l : List α) (n : ℕ) :
    l.rdrop n ++ l.rtake n = l := by
  simp [List.rdrop, List.rtake, List.take_append_drop]

theorem foldl_min_mem (t : List ℚ) : ∀ h : ℚ, t.foldl min h ∈ h :: t := by
  induction t with
  | nil => intro h; simp
  | cons a t ih =>
      intro h
      have hmem := ih (min h a)
      simp only [List.foldl_cons]
      rcases List.mem_cons.mp hmem with hc | hc
      · rcases min_choice h a with hm | hm
        · rw [hc, hm]; exact List.mem_cons_self _ _
        · rw [hc, hm]; exact List.mem_cons.mpr (Or.inr (List.mem_cons_self _ _))
      · exact List.mem_cons.mpr (Or.inr (List.mem_cons.mpr (Or.inr hc)))

theorem foldl_min_le (t : List ℚ) : ∀ h a : ℚ, a ∈ h :: t → t.foldl min h ≤ a := by
  induction t with
  | nil =>
      intro h a ha
      rcases List.mem_cons.mp ha with heq | hc
      · rw [heq]
        simp
      · simp at hc
  | cons b t ih =>
      intro h a ha
      simp only [List.foldl_cons]
      rcases List.mem_cons.mp ha with heq | hc
      · rw [heq]
        exact le_trans (ih (min h b) (min h b) (List.mem_cons_self _ _))
          (min_le_left _ _)
      · rcases List.mem_cons.mp hc with heq | hc2
        · rw [heq]
          exact le_trans (ih (min h b) (min h b) (List.mem_cons_self _ _))
            (min_le_right _ _)
        · exact ih (min h b) a (List.mem_cons.mpr (Or.inr hc2))

theorem foldl_max_mem (t : List ℚ) : ∀ h : ℚ, t.foldl max h ∈ h :: t := by
  induction t with
  | nil => intro h; simp
  | cons a t ih =>
      intro h
      have hmem := ih (max h a)
      simp only [List.foldl_cons]
      rcases List.mem_cons.mp hmem with hc | hc
      · rcases max_choice h a with hm | hm
        · rw [hc, hm]; exact List.mem_cons_self _ _
        · rw [hc, hm]; exact List.mem_cons.mpr (Or.inr (List.mem_cons_self _ _))
      · exact List.mem_cons.mpr (Or.inr (List.mem_cons.mpr (Or.inr hc)))

theorem foldl_le_max (t : List ℚ) : ∀ h a : ℚ, a ∈ h :: t → a ≤ t.foldl max h := by
  induction t with
  | nil =>
      intro h a ha
      rcases List.mem_cons.mp ha with heq | hc
      · rw [heq]
        simp
      · simp at hc
  | cons b t ih =>
      intro h a ha
      simp only [List.foldl_cons]
      rcases List.mem_cons.mp ha with heq | hc
      · rw [heq]
        exact le_trans (le_max_left _ _)
          (ih (max h b) (max h b) (List.mem_cons_self _ _))
      · rcases List.mem_cons.mp hc with heq | hc2
        · rw [heq]
          exact le_trans (le_max_right _ _)
            (ih (max h b) (max h b) (List.mem_cons_self _ _))
        · exact ih (max h b) a (List.mem_cons.mpr (Or.inr hc2))

theorem pyMin_mem (l : List ℚ) (d : ℚ) (h : l ≠ []) : pyMin l d ∈ l := by
  cases l with
  | nil => exact absurd rfl h
  | cons a t => exact foldl_min_mem t a

theorem pyMin_le (l : List ℚ) (d a : ℚ) (ha : a ∈ l) : pyMin l d ≤ a := by
  cases l with
  | nil => simp at ha
  | cons b t => exact foldl_min_le t b a ha

theorem pyMax_mem (l : List ℚ) (d : ℚ) (h : l ≠ []) : pyMax l d ∈ l := by
  cases l with
  | nil => exact absurd rfl h
  | cons a t => exact foldl_max_mem t a

theorem le_pyMax (l : List ℚ) (d a : ℚ) (ha : a ∈ l) : a ≤ pyMax l d := by
  cases l with
  | nil => simp at ha
  | cons b t => exact foldl_le_max t b a ha

theorem pyMinE_bind {β : Type} (l : List ℚ) (h : l ≠ []) (f : ℚ → Option β) :
    (pyMinE l).bind f = f (pyMin l 0) := by
  cases l with
  | nil => exact absurd rfl h
  | cons a t => rfl

theorem pyMaxE_bind {β : Type} (l : List ℚ) (h : l ≠ []) (f : ℚ → Option β) :
    (pyMaxE l).bind f = f (pyMax l 0) := by
  cases l with
  | nil => exact absurd rfl h
  | cons a t => rfl

theorem NDP_floor :
    (NUMBER_OF_DATA_POINTS : ℤ) = ⌊TIME_PLOTTED / S_BETWEEN_DATAPOINTS⌋ := by
  rw [NUMBER_OF_DATA_POINTS, TIME_PLOTTED, S_BETWEEN_DATAPOINTS]
  norm_num

theorem NDP_ne_zero : NUMBER_OF_DATA_POINTS ≠ 0 := by
  rw [NUMBER_OF_DATA_POINTS]
  omega

theorem seriesUpdate_ne_nil (old new : List ℚ) (h : new ≠ []) :
    seriesUpdate old new ≠ [] := by
  apply rtake_ne_nil _ _ NDP_ne_zero
  simp [h]

theorem zipWith_add_ne_nil {a b : List ℚ} (ha : a ≠ []) (hb : b ≠ []) :
    List.zipWith (· + ·) a b ≠ [] := by
  cases a with
  | nil => exact absurd rfl ha
  | cons x t =>
      cases b with
      | nil => exact absurd rfl hb
      | cons y u => simp

/-! ## Plotter step and invariant lemmas -/

/-- For a non-empty batch, `animate` succeeds and equals `animateStep`. -/
theorem animate_eq_step (new_data : List (DataPoint ℚ)) (s : PlotterState)
    (hb : new_data ≠ []) : animate new_data s = some (animateStep new_data s) := by
  have hmap : ∀ f : DataPoint ℚ → ℚ, new_data.map f ≠ [] := by
    intro f
    simp [hb]
  have hax := seriesUpdate_ne_nil s.accel_x_line.ydata _ (hmap fun dp => dp.accel_x)
  have hay := seriesUpdate_ne_nil s.accel_y_line.ydata _ (hmap fun dp => dp.accel_y)
  have haz := seriesUpdate_ne_nil s.accel_z_line.ydata _ (hmap fun dp => dp.accel_z)
  have hgx := seriesUpdate_ne_nil s.gyro_x_line.ydata _ (hmap fun dp => dp.gyro_x)
  have hgy := seriesUpdate_ne_nil s.gyro_y_line.ydata _ (hmap fun dp => dp.gyro_y)
  have hgz := seriesUpdate_ne_nil s.gyro_z_line.ydata _ (hmap fun dp => dp.gyro_z)
  have hA := zipWith_add_ne_nil (zipWith_add_ne_nil hax hay) haz
  have hG := zipWith_add_ne_nil (zipWith_add_ne_nil hgx hgy) hgz
  unfold animate
  rw [if_neg (by simpa [List.isEmpty_iff] using hb)]
  rw [pyMinE_bind _ hA, pyMaxE_bind _ hA, pyMinE_bind _ hG, pyMaxE_bind _ hG]
  simp only [animateStep, xlimNew, accelYlimNew, gyroYlimNew, xWindow,
    accelXWindow, accelYWindow, accelZWindow, gyroXWindow, gyroYWindow,
    gyroZWindow, accelSum, gyroSum]

theorem animate_nil (s : PlotterState) : animate [] s = some s := rfl

theorem animateStep_wf (b : List (DataPoint ℚ)) (s : PlotterState)
    (hwf : Wf s) : Wf (animateStep b s) := by
  obtain ⟨h1, h2, h3, h4, h5, l1, l2, l3, l4, l5, l6, hN⟩ := hwf
  have hlen : ∀ old : List ℚ, ∀ f : DataPoint ℚ → ℚ,
      (seriesUpdate old (b.map f)).length
        = min NUMBER_OF_DATA_POINTS (old.length + b.length) := by
    intro old f
    simp [seriesUpdate, length_rtake]
  refine ⟨?_, ?_, ?_, ?_, ?_, ?_, ?_, ?_, ?_, ?_, ?_, ?_⟩ <;>
    simp only [animateStep, accelXWindow, accelYWindow, accelZWindow,
      gyroXWindow, gyroYWindow, gyroZWindow, xWindow, hlen, h1, h2, h3, h4,
      h5, l1, l2, l3, l4, l5, l6] <;>
    omega

theorem animateStep_xliminv (b : List (DataPoint ℚ)) (s : PlotterState)
    (hb : b ≠ []) : XlimInv (animateStep b s) := by
  have hx2 : (animateStep b s).accel_x_line.xdata ≠ [] := by
    simp only [animateStep, xWindow]
    exact seriesUpdate_ne_nil _ _ (by simp [hb])
  refine ⟨fun hcon => absurd hcon hx2, fun _ => ?_, ?_, ?_, ?_, ?_, ?_⟩ <;>
    simp only [animateStep, xlimNew]

theorem runTicks_wf_xlim : ∀ (bs : List (List (DataPoint ℚ)))
    (s0 s : PlotterState), runTicks bs s0 = some s → Wf s0 → XlimInv s0 →
    Wf s ∧ XlimInv s := by
  intro bs
  induction bs with
  | nil =>
      intro s0 s h hw hx
      obtain rfl : s0 = s := by simpa [runTicks] using h
      exact ⟨hw, hx⟩
  | cons b bs ih =>
      intro s0 s h hw hx
      by_cases hb : b = []
      · subst hb
        rw [show runTicks ([] :: bs) s0 = (animate [] s0).bind (runTicks bs)
            from rfl, animate_nil, Option.some_bind] at h
        exact ih s0 s h hw hx
      · rw [show runTicks (b :: bs) s0 = (animate b s0).bind (runTicks bs)
            from rfl, animate_eq_step b s0 hb, Option.some_bind] at h
        exact ih _ s h (animateStep_wf b s0 hw) (animateStep_xliminv b s0 hb)

set_option maxRecDepth 2048 in

theorem runTicks_series : ∀ (bs : List (List (DataPoint ℚ)))
    (s0 s : PlotterState), runTicks bs s0 = some s → Wf s0 →
    s.accel_x_line.xdata = (s0.accel_x_line.xdata
        ++ (bs.flatten.map fun dp => dp.timestamp)).rtake NUMBER_OF_DATA_POINTS ∧
    s.accel_x_line.ydata = (s0.accel_x_line.ydata
        ++ (bs.flatten.map fun dp => dp.accel_x)).rtake NUMBER_OF_DATA_POINTS ∧
    s.accel_y_line.ydata = (s0.accel_y_line.ydata
        ++ (bs.flatten.map fun dp => dp.accel_y)).rtake NUMBER_OF_DATA_POINTS ∧
    s.accel_z_line.ydata = (s0.accel_z_line.ydata
        ++ (bs.flatten.map fun dp => dp.accel_z)).rtake NUMBER_OF_DATA_POINTS ∧
    s.gyro_x_line.ydata = (s0.gyro_x_line.ydata
        ++ (bs.flatten.map fun dp => dp.gyro_x)).rtake NUMBER_OF_DATA_POINTS ∧
    s.gyro_y_line.ydata = (s0.gyro_y_line.ydata
        ++ (bs.flatten.map fun dp => dp.gyro_y)).rtake NUMBER_OF_DATA_POINTS ∧
    s.gyro_z_line.ydata = (s0.gyro_z_line.ydata
        ++ (bs.flatten.map fun dp => dp.gyro_z)).rtake NUMBER_OF_DATA_POINTS := by
  intro bs
  induction bs with
  | nil =>
      intro s0 s h hw
      obtain rfl : s0 = s := by simpa [runTicks] using h
      obtain ⟨h1, h2, h3, h4, h5, l1, l2, l3, l4, l5, l6, hN⟩ := hw
      refine ⟨?_, ?_, ?_, ?_, ?_, ?_, ?_⟩ <;>
        simp only [List.flatten_nil, List.map_nil, List.append_nil] <;>
        rw [rtake_eq_self] <;> omega
  | cons b bs ih =>
      intro s0 s h hw
      by_cases hb : b = []
      · subst hb
        rw [show runTicks ([] :: bs) s0 = (animate [] s0).bind (runTicks bs)
            from rfl, animate_nil, Option.some_bind] at h
        simpa using ih s0 s h hw
      · rw [show runTicks (b :: bs) s0 = (animate b s0).bind (runTicks bs)
            from rfl, animate_eq_step b s0 hb, Option.some_bind] at h
        have hstep := ih (animateStep b s0) s h (animateStep_wf b s0 hw)
        simp only [animateStep, xWindow, accelXWindow, accelYWindow,
          accelZWindow, gyroXWindow, gyroYWindow, gyroZWindow] at hstep
        have hcomp : ∀ (old : List ℚ) (f : DataPoint ℚ → ℚ),
            ((seriesUpdate old (b.map f))
                ++ (bs.flatten.map f)).rtake NUMBER_OF_DATA_POINTS
              = (old ++ ((b :: bs).flatten.map f)).rtake NUMBER_OF_DATA_POINTS := by
          intro old f
          show (((old ++ b.map f).rtake NUMBER_OF_DATA_POINTS)
              ++ (bs.flatten.map f)).rtake NUMBER_OF_DATA_POINTS = _
          rw [rtake_append_rtake, List.append_assoc, List.flatten_cons,
            List.map_append]
        refine ⟨?_, ?_, ?_, ?_, ?_, ?_, ?_⟩
        · rw [hstep.1]; exact hcomp _ _
        · rw [hstep.2.1]; exact hcomp _ _
        · rw [hstep.2.2.1]; exact hcomp _ _
        · rw [hstep.2.2.2.1]; exact hcomp _ _
        · rw [hstep.2.2.2.2.1]; exact hcomp _ _
        · rw [hstep.2.2.2.2.2.1]; exact hcomp _ _
        · rw [hstep.2.2.2.2.2.2]; exact hcomp _ _

theorem init_plots_wf : Wf init_plots := by
  refine ⟨rfl, rfl, rfl, rfl, rfl, rfl, rfl, rfl, rfl, rfl, rfl, ?_⟩
  simp [init_plots]

theorem init_plots_xliminv : XlimInv init_plots := by
  exact ⟨fun _ => rfl, fun hcon => absurd rfl hcon, rfl, rfl, rfl, rfl, rfl⟩

/-- Lemma: `String.intercalate ";"` on an explicit six-element list is the
left-associated `++` chain the handler builds. -/
theorem intercalate_six (a b c d e f : String) :
    String.intercalate ";" [a, b, c, d, e, f]
      = a ++ ";" ++ b ++ ";" ++ c ++ ";" ++ d ++ ";" ++ e ++ ";" ++ f := rfl

/-! ## Claim theorems -/

/-- C1: a buffer whose length is a positive multiple of 24 decodes without
error into exactly `len/24` samples; the counter advances by `len/24`; the
`j`-th sample has (implicit) index `counter + j`, hence contiguous strictly
increasing indices, and timestamp `index * S_BETWEEN_DATAPOINTS`; with a
fresh counter the first sample has index 0 and timestamp 0. -/
theorem decode_valid_frames (st : NanoState) (data : List ℕ) (k : ℕ)
    (hk : 0 < k) (hlen : data.length = 24 * k) :
    Nano33BLE.callback_data st data =
      (⟨st.current_datapoint + k,
        st.plot_queue ++ decodedSamples st.current_datapoint data,
        st.serial_queue ++ decodedSamples st.current_datapoint data⟩, true) ∧
    (decodedSamples st.current_datapoint data).length = data.length / 24 ∧
    (∀ j, j < k →
      ((decodedSamples st.current_datapoint data).getD j default).timestamp =
        ((st.current_datapoint + j : ℕ) : ℚ) * S_BETWEEN_DATAPOINTS) ∧
    (st.current_datapoint = 0 →
      ((decodedSamples st.current_datapoint data).getD 0 default).timestamp = 0) := by
  have h6 : data.length = 4 * (6 * k) := by omega
  have hu := unpackFloats_ok data (6 * k) h6
  have hb := buildSamples_ok st.current_datapoint
    ((List.range (6 * k)).map (fun i => f32At data (4 * i))) k (by simp)
  have hdec := decodedSamples_eq st.current_datapoint data k hlen
  have hts : ∀ j, j < k →
      ((decodedSamples st.current_datapoint data).getD j default).timestamp =
        ((st.current_datapoint + j : ℕ) : ℚ) * S_BETWEEN_DATAPOINTS := by
    intro j hj
    rw [hdec, getD_map_range, if_pos hj]
    rfl
  refine ⟨?_, ?_, hts, ?_⟩
  · simp only [Nano33BLE.callback_data, hu, decodedSamples, hb]
  · rw [hdec]
    simp only [List.length_map, List.length_range]
    omega
  · intro h0
    have := hts 0 hk
    rw [this, h0]
    norm_num

theorem decode_valid_frames_witness :
    Nano33BLE.callback_data ⟨0, [], []⟩ (List.replicate 24 0) =
      (⟨0 + 1, [] ++ decodedSamples 0 (List.replicate 24 0),
        [] ++ decodedSamples 0 (List.replicate 24 0)⟩, true) :=
  (decode_valid_frames ⟨0, [], []⟩ (List.replicate 24 0) 1 (by decide)
    (by decide)).1

/-- C2 counterexample: a 28-byte buffer (not a multiple of 24) nevertheless
produces one sample, distributes it to both channels, and advances the
counter from 0 to 1, contradicting the claim that such a call produces
zero samples and leaves the counter untouched. -/
theorem decode_bad_frame_counterexample :
    (List.replicate 28 (0 : ℕ)).length % 24 ≠ 0 ∧
    (Nano33BLE.callback_data ⟨0, [], []⟩ (List.replicate 28 0)).1.current_datapoint
        = 1 ∧
    (Nano33BLE.callback_data ⟨0, [], []⟩ (List.replicate 28 0)).1.plot_queue.length
        = 1 ∧
    (Nano33BLE.callback_data ⟨0, [], []⟩ (List.replicate 28 0)).1.serial_queue.length
        = 1 := by
  decide

/-- C2 amended: a buffer whose length is not a multiple of 24 always makes
the call abort with an exception; if the length is also not a multiple of 4
the call emits nothing and the counter is untouched, but if the length is a
multiple of 4 the call first emits `len/24` complete samples to both
channels and advances the counter by `len/24` before aborting. -/
theorem decode_bad_frame_amended (st : NanoState) (data : List ℕ)
    (h : data.length % 24 ≠ 0) :
    (Nano33BLE.callback_data st data).2 = false ∧
    (data.length % 4 ≠ 0 → (Nano33BLE.callback_data st data).1 = st) ∧
    (data.length % 4 = 0 →
      (decodedSamples st.current_datapoint data).length = data.length / 24 ∧
      (Nano33BLE.callback_data st data).1.current_datapoint
          = st.current_datapoint + data.length / 24 ∧
      (Nano33BLE.callback_data st data).1.plot_queue
          = st.plot_queue ++ decodedSamples st.current_datapoint data ∧
      (Nano33BLE.callback_data st data).1.serial_queue
          = st.serial_queue ++ decodedSamples st.current_datapoint data) := by
  by_cases h4 : data.length % 4 = 0
  · have hm : data.length = 4 * (data.length / 4) := by omega
    have hu := unpackFloats_ok data (data.length / 4) hm
    have hfslen : ((List.range (data.length / 4)).map
        (fun i => f32At data (4 * i))).length = data.length / 4 := by simp
    have h6 : ((List.range (data.length / 4)).map
        (fun i => f32At data (4 * i))).length % 6 ≠ 0 := by
      rw [hfslen]; omega
    have hb := buildSamples_bad st.current_datapoint
      ((List.range (data.length / 4)).map (fun i => f32At data (4 * i))) h6
    rw [hfslen] at hb
    have hdiv : data.length / 4 / 6 = data.length / 24 := by omega
    rw [hdiv] at hb
    refine ⟨?_, fun hc => absurd h4 hc, fun _ => ⟨?_, ?_, ?_, ?_⟩⟩
    · simp only [Nano33BLE.callback_data, hu]
      exact hb.2.2
    · simp only [decodedSamples, hu]
      exact hb.1
    · simp only [Nano33BLE.callback_data, hu]
      exact hb.2.1
    · simp only [Nano33BLE.callback_data, hu, decodedSamples]
    · simp only [Nano33BLE.callback_data, hu, decodedSamples]
  · have hu := unpackFloats_mod data h4
    refine ⟨?_, fun _ => ?_, fun hc => absurd hc h4⟩
    · simp [Nano33BLE.callback_data, hu]
    · simp [Nano33BLE.callback_data, hu]

theorem decode_bad_frame_amended_witness :
    ((List.replicate 28 (0 : ℕ)).length % 24 ≠ 0) ∧
    (Nano33BLE.callback_data ⟨0, [], []⟩ (List.replicate 28 0)).2 = false :=
  ⟨by decide,
   (decode_bad_frame_amended ⟨0, [], []⟩ (List.replicate 28 0) (by decide)).1⟩

/-- C6: over any sequence of callbacks, both consumer channels receive
exactly the decoded samples, each exactly once, appended in decode order
(FIFO, never reordered), identically on the plot and publisher channels. -/
theorem fanout_exactly_once (st : NanoState) (bufs : List (List ℕ)) :
    (runCallbacks st bufs).plot_queue
        = st.plot_queue ++ emittedAll st.current_datapoint bufs ∧
    (runCallbacks st bufs).serial_queue
        = st.serial_queue ++ emittedAll st.current_datapoint bufs :=
  runCallbacks_queues bufs st

/-- C9: the `j`-th decoded sample of a well-framed buffer is built from the
`j`-th consecutive 24-byte group, read as six little-endian IEEE-754
binary32 floats populating, in order, gyro_x, gyro_y, gyro_z, accel_x,
accel_y, accel_z. -/
theorem sample_field_layout (c : ℕ) (data : List ℕ) (k j : ℕ)
    (hlen : data.length = 24 * k) (hj : j < k) :
    (decodedSamples c data).getD j default = sampleAt c data j := by
  rw [decodedSamples_eq c data k hlen, getD_map_range, if_pos hj]

theorem sample_field_layout_witness :
    (decodedSamples 0 (List.range 24)).getD 0 default =
      sampleAt 0 (List.range 24) 0 :=
  sample_field_layout 0 (List.range 24) 1 0 (by decide) (by decide)

/-- C7: a render tick that drains zero samples is a no-op: every series,
every line and every axis range is left exactly as before. -/
theorem empty_drain_noop (s : PlotterState) : animate [] s = some s := rfl

/-- C4: starting from `init_plots`, after any sequence of render ticks the
x series and all six y series each hold exactly the last
`NUMBER_OF_DATA_POINTS` ingested entries in original order; the length is
`min N total`, hence exactly `N` once more than `N` entries have been
ingested and never more than `N`; `N` agrees with
`floor(TIME_PLOTTED / S_BETWEEN_DATAPOINTS)`; and when timestamps are
monotone the evicted entries are all ≤ the retained ones, so the window
keeps exactly the most recent `N` entries by timestamp. -/
theorem rolling_window_retention (bs : List (List (DataPoint ℚ)))
    (s : PlotterState) (h : runTicks bs init_plots = some s) :
    s.accel_x_line.xdata
        = (bs.flatten.map fun dp => dp.timestamp).rtake NUMBER_OF_DATA_POINTS ∧
    s.accel_x_line.ydata
        = (bs.flatten.map fun dp => dp.accel_x).rtake NUMBER_OF_DATA_POINTS ∧
    s.accel_y_line.ydata
        = (bs.flatten.map fun dp => dp.accel_y).rtake NUMBER_OF_DATA_POINTS ∧
    s.accel_z_line.ydata
        = (bs.flatten.map fun dp => dp.accel_z).rtake NUMBER_OF_DATA_POINTS ∧
    s.gyro_x_line.ydata
        = (bs.flatten.map fun dp => dp.gyro_x).rtake NUMBER_OF_DATA_POINTS ∧
    s.gyro_y_line.ydata
        = (bs.flatten.map fun dp => dp.gyro_y).rtake NUMBER_OF_DATA_POINTS ∧
    s.gyro_z_line.ydata
        = (bs.flatten.map fun dp => dp.gyro_z).rtake NUMBER_OF_DATA_POINTS ∧
    s.accel_x_line.xdata.length
        = min NUMBER_OF_DATA_POINTS bs.flatten.length ∧
    (NUMBER_OF_DATA_POINTS < bs.flatten.length →
        s.accel_x_line.xdata.length = NUMBER_OF_DATA_POINTS) ∧
    (NUMBER_OF_DATA_POINTS : ℤ) = ⌊TIME_PLOTTED / S_BETWEEN_DATAPOINTS⌋ ∧
    (List.Sorted (· ≤ ·) (bs.flatten.map fun dp => dp.timestamp) →
      ∀ a ∈ (bs.flatten.map fun dp => dp.timestamp).rdrop NUMBER_OF_DATA_POINTS,
        ∀ c ∈ s.accel_x_line.xdata, a ≤ c) := by
  have hs := runTicks_series bs init_plots s h init_plots_wf
  simp only [init_plots] at hs
  simp only [List.nil_append] at hs
  obtain ⟨hx, hax, hay, haz, hgx, hgy, hgz⟩ := hs
  have hlen : s.accel_x_line.xdata.length
      = min NUMBER_OF_DATA_POINTS bs.flatten.length := by
    rw [hx, length_rtake, List.length_map]
  refine ⟨hx, hax, hay, haz, hgx, hgy, hgz, hlen, ?_, NDP_floor, ?_⟩
  · intro hgt
    omega
  · intro hsort a ha c hc
    have hsplit := rdrop_append_rtake
      (bs.flatten.map fun dp => dp.timestamp) NUMBER_OF_DATA_POINTS
    have hpw : List.Pairwise (· ≤ ·)
        ((bs.flatten.map fun dp => dp.timestamp).rdrop NUMBER_OF_DATA_POINTS ++
         (bs.flatten.map fun dp => dp.timestamp).rtake NUMBER_OF_DATA_POINTS) := by
      rw [hsplit]
      exact hsort
    rw [hx] at hc
    exact (List.pairwise_append.mp hpw).2.2 a ha c hc

theorem rolling_window_retention_witness :
    init_plots.accel_x_line.xdata
      = ((([] : List (List (DataPoint ℚ))).flatten.map
          fun dp => dp.timestamp)).rtake NUMBER_OF_DATA_POINTS :=
  (rolling_window_retention [] init_plots rfl).1

/-- C10: after any sequence of render ticks from `init_plots`, all six
lines carry the identical x sequence, and every y series has exactly the
same length as the shared x sequence. -/
theorem lines_share_x_and_lengths (bs : List (List (DataPoint ℚ)))
    (s : PlotterState) (h : runTicks bs init_plots = some s) :
    s.accel_y_line.xdata = s.accel_x_line.xdata ∧
    s.accel_z_line.xdata = s.accel_x_line.xdata ∧
    s.gyro_x_line.xdata = s.accel_x_line.xdata ∧
    s.gyro_y_line.xdata = s.accel_x_line.xdata ∧
    s.gyro_z_line.xdata = s.accel_x_line.xdata ∧
    s.accel_x_line.ydata.length = s.accel_x_line.xdata.length ∧
    s.accel_y_line.ydata.length = s.accel_x_line.xdata.length ∧
    s.accel_z_line.ydata.length = s.accel_x_line.xdata.length ∧
    s.gyro_x_line.ydata.length = s.accel_x_line.xdata.length ∧
    s.gyro_y_line.ydata.length = s.accel_x_line.xdata.length ∧
    s.gyro_z_line.ydata.length = s.accel_x_line.xdata.length := by
  obtain ⟨h1, h2, h3, h4, h5, l1, l2, l3, l4, l5, l6, _⟩ :=
    (runTicks_wf_xlim bs init_plots s h init_plots_wf init_plots_xliminv).1
  exact ⟨h1, h2, h3, h4, h5, l1, l2, l3, l4, l5, l6⟩

theorem lines_share_x_and_lengths_witness :
    init_plots.accel_y_line.xdata = init_plots.accel_x_line.xdata :=
  (lines_share_x_and_lengths [] init_plots rfl).1

/-- C8 counterexample: directly after `init_plots` (window empty, which an
empty-drain tick leaves unchanged) the x-axis range is
`(0, NUMBER_OF_DATA_POINTS) = (0, 1196)`, not `(0, TIME_PLOTTED) = (0, 10)`
as the empty-window default of the claim asserts. -/
theorem xaxis_empty_default_counterexample :
    animate [] init_plots = some init_plots ∧
    init_plots.accel_x_line.xdata = [] ∧
    init_plots.accel_x_plot.xlim = (0, (1196 : ℚ)) ∧
    ¬init_plots.accel_x_plot.xlim = (0, TIME_PLOTTED) := by
  refine ⟨rfl, rfl, by decide, by decide⟩

/-- C8 amended: whenever the window is non-empty the shared x-axis range of
all six subplots equals (min timestamp in window, max timestamp in window);
while the window is empty the range keeps its initialization value
`(0, NUMBER_OF_DATA_POINTS)` (the `min`/`max` defaults `0` and `10` of
line 238-239 are unreachable because the empty-drain tick skips
rescaling). -/
theorem xaxis_range (bs : List (List (DataPoint ℚ))) (s : PlotterState)
    (h : runTicks bs init_plots = some s) :
    (s.accel_x_line.xdata ≠ [] →
      s.accel_x_plot.xlim
          = (pyMin s.accel_x_line.xdata 0, pyMax s.accel_x_line.xdata 10) ∧
      pyMin s.accel_x_line.xdata 0 ∈ s.accel_x_line.xdata ∧
      pyMax s.accel_x_line.xdata 10 ∈ s.accel_x_line.xdata ∧
      (∀ t ∈ s.accel_x_line.xdata,
        pyMin s.accel_x_line.xdata 0 ≤ t ∧ t ≤ pyMax s.accel_x_line.xdata 10)) ∧
    (s.accel_x_line.xdata = [] →
      s.accel_x_plot.xlim = (0, (NUMBER_OF_DATA_POINTS : ℚ))) ∧
    s.accel_y_plot.xlim = s.accel_x_plot.xlim ∧
    s.accel_z_plot.xlim = s.accel_x_plot.xlim ∧
    s.gyro_x_plot.xlim = s.accel_x_plot.xlim ∧
    s.gyro_y_plot.xlim = s.accel_x_plot.xlim ∧
    s.gyro_z_plot.xlim = s.accel_x_plot.xlim := by
  obtain ⟨he, hne, e1, e2, e3, e4, e5⟩ :=
    (runTicks_wf_xlim bs init_plots s h init_plots_wf init_plots_xliminv).2
  refine ⟨fun hx => ⟨hne hx, pyMin_mem _ _ hx, pyMax_mem _ _ hx,
    fun t ht => ⟨pyMin_le _ _ _ ht, le_pyMax _ _ _ ht⟩⟩, he, e1, e2, e3, e4, e5⟩

theorem xaxis_range_witness :
    init_plots.accel_x_plot.xlim = (0, (NUMBER_OF_DATA_POINTS : ℚ)) :=
  (xaxis_range [] init_plots rfl).2.1 rfl

/-- C3: the code evaluated on one tick whose batch is a single sample with
accel = (10, 10, 10): the three acceleration windows are `[10]`, so the
union-based range of the spec is `(9.5, 10.5)`, but the code takes min/max of
the numpy elementwise sum `[30]` and yields `(29.5, 30.5)` — a range that
does not even contain the plotted value 10. -/
theorem accel_ylim_sum_vs_union :
    (animate [⟨0, 0, 0, 0, 10, 10, 10⟩] init_plots).map
        (fun s2 => s2.accel_x_plot.ylim) = some (59 / 2, 61 / 2) ∧
    specGroupYRange [10] [10] [10] (10 / 100) (1 / 2) = (19 / 2, 21 / 2) ∧
    ¬((59 / 2 : ℚ), (61 / 2 : ℚ)) = ((19 / 2 : ℚ), (21 / 2 : ℚ)) ∧
    ¬((59 / 2 : ℚ) ≤ 10) := by
  have hstep := animate_eq_step [⟨0, 0, 0, 0, 10, 10, 10⟩] init_plots (by simp)
  refine ⟨?_, ?_, by norm_num, by norm_num⟩
  · rw [hstep, Option.map_some']
    simp only [animateStep, accelYlimNew, accelSum, accelXWindow, accelYWindow,
      accelZWindow, seriesUpdate, init_plots, PLOT_MARGIN, List.rtake, pyMin,
      pyMax]
    norm_num [NUMBER_OF_DATA_POINTS, sup_eq_max, max_def]
  · simp only [specGroupYRange, pyMin, pyMax]
    norm_num [sup_eq_max, max_def]

/-- C5: every publisher response is six `;`-separated fields, each a
fixed-point 3-decimal rendering, in order gyro_x, gyro_y, gyro_z, accel_x,
accel_y, accel_z of the most recent drained sample; the response depends
only on the last sample of the drained batch (all earlier samples are
discarded); an empty drain yields the all-zero payload; and every field
carries exactly three digits after the decimal point. -/
theorem ws_payload (ds : List (DataPoint ℚ)) :
    (ds = [] → ws_respond ds = "0.000;0.000;0.000;0.000;0.000;0.000") ∧
    (∀ d : DataPoint ℚ,
      ws_respond (ds ++ [d])
          = String.intercalate ";"
              [fix3 d.gyro_x, fix3 d.gyro_y, fix3 d.gyro_z,
               fix3 d.accel_x, fix3 d.accel_y, fix3 d.accel_z] ∧
      ws_respond (ds ++ [d]) = ws_respond [d]) ∧
    (∀ q : ℚ, ∃ intPart : String,
      fix3 q = intPart ++ "." ++ pad3 ((roundHalfEven (q * 1000)).natAbs % 1000) ∧
      (pad3 ((roundHalfEven (q * 1000)).natAbs % 1000)).length = 3) := by
  refine ⟨fun hds => by rw [hds]; rfl, fun d => ⟨?_, ?_⟩, fun q => ?_⟩
  · rw [ws_respond, List.getLast?_concat, intercalate_six]
  · rw [ws_respond, List.getLast?_concat]
    rfl
  · refine ⟨(if q < 0 then "-" else "")
        ++ Nat.repr ((roundHalfEven (q * 1000)).natAbs / 1000), ?_, ?_⟩
    · rw [fix3]
    · rw [pad3]
      rfl

theorem ws_payload_witness :
    ws_respond [] = "0.000;0.000;0.000;0.000;0.000;0.000" ∧
    ws_respond [⟨0, 4, 5, 6, 2 / 5, 1 / 2, 3 / 5⟩]
      = String.intercalate ";"
          [fix3 4, fix3 5, fix3 6, fix3 (2 / 5), fix3 (1 / 2), fix3 (3 / 5)] := by
  constructor
  · exact (ws_payload []).1 rfl
  · have h := ((ws_payload []).2.1 ⟨0, 4, 5, 6, 2 / 5, 1 / 2, 3 / 5⟩).1
    simpa using h

end CircusReader
